import Mathlib

/-!
# Verification of the DuckDB Macro REST bridge (quick-quack)

Shallow embedding of the macro catalog / execution bridge:
`app/macro_service.py` (`MacroIntrospectionService`), `app/models.py`
(`MacroInfo` and its pydantic field constraints), `app/exceptions.py`
(the error taxonomy) and `app/dynamic_endpoints.py`
(`MacroEndpointGenerator`).

Python values flowing through the service are modelled by the inductive
`Value`; host floating-point values are modelled as rationals (no claim
under verification depends on rounding).  Python `str` operations used by
the code (`strip`, `lower`, `upper`, `in`, `startswith`) are modelled over
ASCII on `String.data`.
-/

namespace QuickQuack

/-- A Python runtime value as it can reach the macro service:
`None`, `bool`, `str`, `int`, `float` (modelled as `ℚ`), `list`, `dict`. -/
inductive Value where
  | vnull : Value
  | vbool (b : Bool) : Value
  | vstr (s : String) : Value
  | vint (n : Int) : Value
  | vfloat (q : ℚ) : Value
  | vlist (l : List Value) : Value
  | vdict (d : List (String × Value)) : Value

/-- Model of Python `value is None` (identity check against `None`). -/
def Value.isNull : Value → Bool
  | .vnull => true
  | _ => false

/-- Python whitespace characters stripped by `str.strip()` (ASCII range). -/
def pyIsSpace (c : Char) : Bool :=
  c = ' ' || c = '\t' || c = '\n' || c = '\x0d' || c = '\x0b' || c = '\x0c'

/-- Model of Python `str.strip()`: drop leading and trailing whitespace. -/
def pyStrip (s : String) : String :=
  ⟨(((s.data.dropWhile pyIsSpace).reverse.dropWhile pyIsSpace).reverse)⟩

/-- ASCII lower-casing of one character, as Python `str.lower()` does it. -/
def pyCharLower (c : Char) : Char :=
  if 'A' ≤ c ∧ c ≤ 'Z' then Char.ofNat (c.toNat + 32) else c

/-- ASCII upper-casing of one character, as Python `str.upper()` does it. -/
def pyCharUpper (c : Char) : Char :=
  if 'a' ≤ c ∧ c ≤ 'z' then Char.ofNat (c.toNat - 32) else c

/-- Model of Python `str.lower()` (ASCII). -/
def pyLower (s : String) : String := ⟨s.data.map pyCharLower⟩

/-- Model of Python `str.upper()` (ASCII). -/
def pyUpper (s : String) : String := ⟨s.data.map pyCharUpper⟩

/-- Model of Python `needle in haystack` on strings (substring test). -/
def containsSubstr (haystack needle : String) : Bool :=
  decide (needle.data <:+: haystack.data)

/-- Model of Python `str.startswith`. -/
def pyStartsWith (s pre : String) : Bool :=
  decide (pre.data <+: s.data)

/-- Model of Python `str.isdigit` (ASCII digits): nonempty and all digits. -/
def pyIsDigitStr (s : String) : Bool :=
  !s.data.isEmpty && s.data.all Char.isDigit

/-- Numeric value of a list of decimal digit characters. -/
def digitsToNat (l : List Char) : Nat :=
  l.foldl (fun a c => a * 10 + (c.toNat - '0'.toNat)) 0

/-- Model of Python `float(str)` on finite decimal literals:
optional sign, integer part, optional fraction, optional exponent, after
stripping surrounding whitespace.  `inf`/`nan` literals and underscore
separators are outside the rational model and treated as unparseable. -/
def pyParseFloat (s : String) : Option ℚ :=
  let l0 := (pyStrip s).data
  let signRest : ℚ × List Char :=
    match l0 with
    | '+' :: r => (1, r)
    | '-' :: r => (-1, r)
    | _ => (1, l0)
  let l1 := signRest.2
  let ip := l1.takeWhile Char.isDigit
  let l2 := l1.dropWhile Char.isDigit
  let fracRest : List Char × List Char :=
    match l2 with
    | '.' :: r => (r.takeWhile Char.isDigit, r.dropWhile Char.isDigit)
    | _ => ([], l2)
  let fp := fracRest.1
  let l3 := fracRest.2
  if ip.isEmpty && fp.isEmpty && (match l2 with | '.' :: _ => true | _ => false) then none
  else if ip.isEmpty && (match l2 with | '.' :: _ => false | _ => true) then none
  else
    let mantissa : ℚ := (digitsToNat ip : ℚ) + (digitsToNat fp : ℚ) / ((10 : ℚ) ^ fp.length)
    match l3 with
    | [] => some (signRest.1 * mantissa)
    | 'e' :: r | 'E' :: r =>
      let expRest : Int × List Char :=
        match r with
        | '+' :: r2 => (1, r2)
        | '-' :: r2 => (-1, r2)
        | _ => (1, r)
      let ed := expRest.2.takeWhile Char.isDigit
      let tail := expRest.2.dropWhile Char.isDigit
      if ed.isEmpty || !tail.isEmpty then none
      else some (signRest.1 * mantissa * (10 : ℚ) ^ (expRest.1 * (digitsToNat ed : Int)))
    | _ => none

/-- Model of Python `int(str)`: optional sign followed by digits, after
stripping surrounding whitespace. -/
def pyParseInt (s : String) : Option Int :=
  let l := (pyStrip s).data
  let signRest : Int × List Char :=
    match l with
    | '+' :: r => (1, r)
    | '-' :: r => (-1, r)
    | _ => (1, l)
  if !signRest.2.isEmpty && signRest.2.all Char.isDigit then
    some (signRest.1 * (digitsToNat signRest.2 : Int))
  else none

/-- Model of Python `float(value)` on a runtime value: numbers and booleans
convert, strings are parsed, everything else is a `TypeError` (`none`). -/
def pyFloatOfValue : Value → Option ℚ
  | .vint n => some (n : ℚ)
  | .vfloat q => some q
  | .vbool b => some (if b then 1 else 0)
  | .vstr s => pyParseFloat s
  | _ => none

/-- Truncation toward zero, as Python `int(float)` does. -/
def pyTruncToInt (q : ℚ) : Int := Int.tdiv q.num (q.den : Int)

/-- Model of Python `bool(value)` truthiness. -/
def pyTruthy : Value → Bool
  | .vnull => false
  | .vbool b => b
  | .vstr s => !s.data.isEmpty
  | .vint n => n != 0
  | .vfloat q => q != 0
  | .vlist l => !l.isEmpty
  | .vdict d => !d.isEmpty

/-- Model of Python `str(value)`.  The textual form of non-integral floats
and of containers is abstracted (no verified property depends on it). -/
def pyStr : Value → String
  | .vnull => "None"
  | .vbool true => "True"
  | .vbool false => "False"
  | .vstr s => s
  | .vint n => toString n
  | .vfloat q => if q.den = 1 then toString q.num ++ ".0" else toString q
  | .vlist _ => "<list>"
  | .vdict _ => "<dict>"

/-- `isinstance(value, str) and value.strip() == ""`. -/
def isBlankStr : Value → Bool
  | .vstr s => pyStrip s == ""
  | _ => false

/-- `value_stripped.replace("-", "")`. -/
def removeDashes (s : String) : String :=
  ⟨s.data.filter (fun c => c != '-')⟩

/-- `value_stripped[1:]`. -/
def strDropOne (s : String) : String := ⟨s.data.drop 1⟩

/-- Exactly four decimal digits at the head of the character list. -/
def fourDigitsAt : List Char → Bool
  | a :: b :: c :: d :: _ => a.isDigit && b.isDigit && c.isDigit && d.isDigit
  | _ => false

/-- `\d{4}-\d{2}-\d{2}` matched at the start of the character list. -/
def dateShapeIso : List Char → Bool
  | y1 :: y2 :: y3 :: y4 :: '-' :: m1 :: m2 :: '-' :: d1 :: d2 :: _ =>
    y1.isDigit && y2.isDigit && y3.isDigit && y4.isDigit &&
      m1.isDigit && m2.isDigit && d1.isDigit && d2.isDigit
  | _ => false

/-- `\d{p}/\d{q}/\d{4}` matched at the start of the character list. -/
def dateSlashCase (p q : Nat) (l : List Char) : Bool :=
  let d1 := l.take p
  let r1 := l.drop p
  (d1.length == p && d1.all Char.isDigit) &&
    match r1 with
    | '/' :: r2 =>
      let d2 := r2.take q
      let r3 := r2.drop q
      (d2.length == q && d2.all Char.isDigit) &&
        match r3 with
        | '/' :: r4 => fourDigitsAt r4
        | _ => false
    | _ => false

/-- Model of `re.match(r"\d{4}-\d{2}-\d{2}|\d{1,2}/\d{1,2}/\d{4}", s)`:
either alternative matched as a prefix (greedy `{1,2}` with backtracking is
equivalent to trying both digit counts). -/
def dateShapeOk (s : String) : Bool :=
  dateShapeIso s.data || dateSlashCase 2 2 s.data || dateSlashCase 2 1 s.data ||
    dateSlashCase 1 2 s.data || dateSlashCase 1 1 s.data

/-- JSON insignificant whitespace. -/
def jsonSkipWs (l : List Char) : List Char :=
  l.dropWhile (fun c => c = ' ' || c = '\t' || c = '\n' || c = '\x0d')

/-- JSON string escapes (`\uXXXX` escapes are not modelled). -/
def jsonEscape : Char → Option Char
  | '"' => some '"'
  | '\\' => some '\\'
  | '/' => some '/'
  | 'b' => some '\x08'
  | 'f' => some '\x0c'
  | 'n' => some '\n'
  | 'r' => some '\x0d'
  | 't' => some '\t'
  | _ => none

/-- Body of a JSON string literal (after the opening quote); returns the
decoded characters and the remainder after the closing quote. -/
def jsonStringBody : List Char → Option (List Char × List Char)
  | [] => none
  | '"' :: r => some ([], r)
  | '\\' :: e :: r =>
    match jsonEscape e with
    | some c => (jsonStringBody r).map (fun p => (c :: p.1, p.2))
    | none => none
  | c :: r => (jsonStringBody r).map (fun p => (c :: p.1, p.2))

/-- Characters a JSON number scan consumes. -/
def jsonNumChar (c : Char) : Bool :=
  c.isDigit || c = '-' || c = '+' || c = '.' || c = 'e' || c = 'E'

/-- A JSON number at the head of the input. -/
def jsonNumber (l : List Char) : Option (Value × List Char) :=
  let num := l.takeWhile jsonNumChar
  let rest := l.dropWhile jsonNumChar
  if num.isEmpty then none
  else if num.any (fun c => c = '.' || c = 'e' || c = 'E') then
    (pyParseFloat ⟨num⟩).map (fun q => (Value.vfloat q, rest))
  else (pyParseInt ⟨num⟩).map (fun n => (Value.vint n, rest))

mutual

/-- Fuel-indexed recursive-descent JSON value parser (model of the host's
`json.loads`). -/
def jsonValue : Nat → List Char → Option (Value × List Char)
  | 0, _ => none
  | fuel + 1, l =>
    match jsonSkipWs l with
    | 'n' :: 'u' :: 'l' :: 'l' :: r => some (.vnull, r)
    | 't' :: 'r' :: 'u' :: 'e' :: r => some (.vbool true, r)
    | 'f' :: 'a' :: 'l' :: 's' :: 'e' :: r => some (.vbool false, r)
    | '"' :: r => (jsonStringBody r).map (fun p => (Value.vstr ⟨p.1⟩, p.2))
    | '[' :: r =>
      (match jsonSkipWs r with
       | ']' :: r2 => some (.vlist [], r2)
       | r1 => (jsonItems fuel r1).map (fun p => (Value.vlist p.1, p.2)))
    | '\x7b' :: r =>
      (match jsonSkipWs r with
       | '\x7d' :: r2 => some (.vdict [], r2)
       | r1 => (jsonMembers fuel r1).map (fun p => (Value.vdict p.1, p.2)))
    | l1 => jsonNumber l1

/-- Comma-separated JSON array items up to the closing bracket. -/
def jsonItems : Nat → List Char → Option (List Value × List Char)
  | 0, _ => none
  | fuel + 1, l =>
    match jsonValue fuel l with
    | none => none
    | some (v, r) =>
      match jsonSkipWs r with
      | ',' :: r2 => (jsonItems fuel r2).map (fun p => (v :: p.1, p.2))
      | ']' :: r2 => some ([v], r2)
      | _ => none

/-- Comma-separated JSON object members up to the closing brace. -/
def jsonMembers : Nat → List Char → Option (List (String × Value) × List Char)
  | 0, _ => none
  | fuel + 1, l =>
    match jsonSkipWs l with
    | '"' :: r =>
      match jsonStringBody r with
      | none => none
      | some (k, r1) =>
        match jsonSkipWs r1 with
        | ':' :: r2 =>
          match jsonValue fuel r2 with
          | none => none
          | some (v, r3) =>
            match jsonSkipWs r3 with
            | ',' :: r4 => (jsonMembers fuel r4).map (fun p => ((⟨k⟩, v) :: p.1, p.2))
            | '\x7d' :: r4 => some ([(⟨k⟩, v)], r4)
            | _ => none
        | _ => none
    | _ => none

end

/-- Model of `json.loads` on a string: parse one JSON value and require
only whitespace to remain. -/
def pyParseJson (s : String) : Option Value :=
  match jsonValue (s.data.length + 1) s.data with
  | some (v, r) => if (jsonSkipWs r).isEmpty then some v else none
  | none => none

/-- Message of the `ValueError` re-raised by `_convert_parameter`'s outer
handler: every inner failure is wrapped as
`Cannot convert '<value>' to <param_type>: <inner>`.  The inner host
runtime messages (from `int`/`float`) are approximated; no verified
property depends on their text. -/
def convErr (value : Value) (paramType : String) (inner : String) : String :=
  "Cannot convert '" ++ pyStr value ++ "' to " ++ paramType ++ ": " ++ inner

/-- Shallow embedding of `MacroIntrospectionService._convert_parameter`
(`app/macro_service.py`, lines 184-309).  `Except.error` models the
`ValueError` the Python raises; `Except.ok` the returned value. -/
def convertParameter (value : Value) (paramType : String) : Except String Value :=
  if value.isNull then .ok .vnull
  else if isBlankStr value then .ok .vnull
  else
    let ptU := if paramType == "" then "UNKNOWN" else pyUpper paramType
    if ptU ∈ ["INTEGER", "BIGINT", "INT", "SMALLINT", "TINYINT"] then
      match value with
      | .vstr s =>
        let s1 := pyStrip s
        if pyLower s1 ∈ ["", "null", "none"] then .ok .vnull
        else
          match pyParseFloat s1 with
          | some q => .ok (.vint (pyTruncToInt q))
          | none => .error (convErr (.vstr s1) paramType
              ("could not convert string to float: '" ++ s1 ++ "'"))
      | v =>
        match pyFloatOfValue v with
        | some q => .ok (.vint (pyTruncToInt q))
        | none => .error (convErr v paramType
            "float() argument must be a number or a string")
    else if ptU ∈ ["DOUBLE", "REAL", "FLOAT", "DECIMAL", "NUMERIC"] then
      match value with
      | .vstr s =>
        let s1 := pyStrip s
        if pyLower s1 ∈ ["", "null", "none"] then .ok .vnull
        else
          match pyParseFloat s1 with
          | some q => .ok (.vfloat q)
          | none => .error (convErr (.vstr s1) paramType
              ("could not convert string to float: '" ++ s1 ++ "'"))
      | v =>
        match pyFloatOfValue v with
        | some q => .ok (.vfloat q)
        | none => .error (convErr v paramType
            "float() argument must be a number or a string")
    else if ptU ∈ ["VARCHAR", "TEXT", "STRING", "CHAR"] then
      .ok (.vstr (pyStr value))
    else if ptU == "BOOLEAN" then
      match value with
      | .vbool b => .ok (.vbool b)
      | .vstr s =>
        let vl := pyStrip (pyLower s)
        if vl ∈ ["true", "1", "yes", "on", "t", "y"] then .ok (.vbool true)
        else if vl ∈ ["false", "0", "no", "off", "f", "n"] then .ok (.vbool false)
        else .error (convErr value paramType
            ("Cannot convert '" ++ s ++ "' to boolean"))
      | v => .ok (.vbool (pyTruthy v))
    else if ptU ∈ ["DATE", "TIMESTAMP", "TIME"] then
      let dateStr := pyStrip (pyStr value)
      if dateStr == "" || pyLower dateStr ∈ ["null", "none"] then .ok .vnull
      else if ptU == "DATE" && !dateShapeOk dateStr then
        .error (convErr value paramType
          ("Invalid date format: " ++ dateStr ++ ". Expected YYYY-MM-DD or MM/DD/YYYY"))
      else .ok (.vstr dateStr)
    else if ptU ∈ ["JSON", "ARRAY"] then
      match value with
      | .vdict d => .ok (.vdict d)
      | .vlist l => .ok (.vlist l)
      | .vstr s =>
        match pyParseJson s with
        | some v => .ok v
        | none => .error (convErr value paramType ("Invalid JSON format: " ++ s))
      | v => .ok v
    else if ptU == "UNKNOWN" then
      match value with
      | .vstr s =>
        let vs := pyStrip s
        let sniffFloat : Except String Value :=
          if containsSubstr vs "." || containsSubstr (pyLower vs) "e" then
            match pyParseFloat vs with
            | some q => .ok (.vfloat q)
            | none => .ok value
          else if pyIsDigitStr (removeDashes vs) then
            match pyParseInt vs with
            | some n => .ok (.vint n)
            | none => .ok value
          else .ok value
        if pyIsDigitStr vs || (pyStartsWith vs "-" && pyIsDigitStr (strDropOne vs)) then
          match pyParseInt vs with
          | some n => .ok (.vint n)
          | none => sniffFloat
        else sniffFloat
      | _ => .ok value
    else .ok value

/-- Kinds of DuckDB macros (`app/models.py`, `MacroType`). -/
inductive MacroType where
  | SCALAR
  | TABLE
deriving DecidableEq, Repr

/-- Parsed macro metadata (`app/models.py`, `MacroInfo`).  The pydantic
field constraints on `name` are captured by `validMacroName`. -/
structure MacroInfo where
  name : String
  parameters : List String
  parameter_types : List String
  return_type : String
  macro_type : MacroType
deriving DecidableEq, Repr

/-- `[A-Za-z]`. -/
def isIdentStart (c : Char) : Bool :=
  ('a' ≤ c && c ≤ 'z') || ('A' ≤ c && c ≤ 'Z')

/-- `[A-Za-z0-9_]`. -/
def isIdentChar (c : Char) : Bool :=
  isIdentStart c || ('0' ≤ c && c ≤ '9') || c = '_'

/-- The identifier pattern `^[a-zA-Z][a-zA-Z0-9_]*$` as a full match of the
string (pydantic v2 regex semantics: the anchors bind to the ends of the
text). -/
def matchesIdentPattern (s : String) : Bool :=
  match s.data with
  | [] => false
  | c :: rest => isIdentStart c && rest.all isIdentChar

/-- The pydantic field constraints on `MacroInfo.name` (`app/models.py`,
lines 17-19): `min_length=1`, `max_length=100`, identifier pattern. -/
def validMacroName (s : String) : Bool :=
  decide (1 ≤ s.data.length) && decide (s.data.length ≤ 100) && matchesIdentPattern s

/-- Python falsy-or-default on an optional string
(`row[i] if row[i] else d`: both `None` and `""` fall back). -/
def pyStrOr (o : Option String) (d : String) : String :=
  match o with
  | none => d
  | some s => if s == "" then d else s

/-- One result row of the discovery query over `duckdb_functions()`
(`function_name, parameters, parameter_types, return_type,
macro_definition, function_type`).  Optional columns may be SQL NULL;
`function_type = none` models a row shorter than six fields. -/
structure CatalogRow where
  function_name : String
  parameters : Option (List String)
  parameter_types : Option (List (Option String))
  return_type : Option String
  macro_definition : Option String
  function_type : Option String

/-- Shallow embedding of `MacroIntrospectionService._parse_macro`
(`app/macro_service.py`, lines 58-101). -/
def parseMacro (row : CatalogRow) : MacroInfo :=
  let parameters := row.parameters.getD []
  let parameter_types := (row.parameter_types.getD []).map (fun pt => pt.getD "UNKNOWN")
  let return_type := pyStrOr row.return_type "UNKNOWN"
  let macro_definition := pyStrOr row.macro_definition ""
  let function_type := row.function_type.getD "macro"
  let macro_type :=
    if function_type == "table_macro" then MacroType.TABLE
    else if containsSubstr (pyUpper macro_definition) "TABLE"
        || pyStartsWith (pyUpper return_type) "TABLE"
        || containsSubstr (pyUpper macro_definition) "SELECT" then MacroType.TABLE
    else MacroType.SCALAR
  { name := row.function_name, parameters, parameter_types, return_type, macro_type }

/-- `MacroInfo(...)` construction in `_parse_macro`: pydantic validates the
`name` field at construction; an invalid name raises a `ValidationError`,
modelled as `Except.error`. -/
def parseMacroChecked (row : CatalogRow) : Except String MacroInfo :=
  let info := parseMacro row
  if validMacroName info.name then .ok info
  else .error ("validation error for MacroInfo name: " ++ info.name)

/-- `list_macros`: parse every discovery row; a pydantic failure aborts the
whole discovery (the exception propagates out of the comprehension). -/
def listMacros (rows : List CatalogRow) : Except String (List MacroInfo) :=
  rows.mapM parseMacroChecked

/-- `MacroParameterError` (`app/exceptions.py`, lines 28-46): message plus
the optional structured details its constructor records. -/
structure ParamErr where
  message : String
  parameter_name : Option String
  expected_type : Option String
  provided_value : Option String
deriving DecidableEq, Repr

/-- `if x:` guard used by the exception constructors: an empty string is
falsy and leaves the detail absent. -/
def truthyOpt (o : Option String) : Option String :=
  match o with
  | none => none
  | some s => if s == "" then none else some s

/-- The `MacroParameterError` constructor. -/
def mkParamErr (message : String) (pname ptype : Option String) (pval : Option Value) :
    ParamErr :=
  { message,
    parameter_name := truthyOpt pname,
    expected_type := truthyOpt ptype,
    provided_value := pval.map pyStr }

/-- Python dict lookup (`params[k]` guarded by `k in params`) on an
association list: the entry under key `k`, when present. -/
def dictLookup (m : List (String × Value)) (k : String) : Option Value :=
  match m with
  | [] => none
  | (pk, pv) :: rest => if pk = k then some pv else dictLookup rest k

/-- Python dict assignment `validated[param_name] = v` on an association
list: replace in place if the key exists, else append. -/
def insertReplace (m : List (String × Value)) (k : String) (v : Value) :
    List (String × Value) :=
  if m.any (fun p => p.1 == k) then m.map (fun p => if p.1 == k then (k, v) else p)
  else m ++ [(k, v)]

/-- `len([v for v in params.values() if v is not None])`. -/
def countProvided (params : List (String × Value)) : Nat :=
  (params.filter (fun p => !p.2.isNull)).length

/-- The per-parameter loop of `validate_macro_parameters` over
`zip(macro_info.parameters, macro_info.parameter_types)`
(`app/macro_service.py`, lines 155-174). -/
def validateLoop (pairs : List (String × String)) (params : List (String × Value))
    (acc : List (String × Value)) : Except ParamErr (List (String × Value)) :=
  match pairs with
  | [] => .ok acc
  | (pn, pt) :: rest =>
    match dictLookup params pn with
    | some v =>
      if v.isNull then validateLoop rest params acc
      else
        match convertParameter v pt with
        | .ok cv => validateLoop rest params (insertReplace acc pn cv)
        | .error e =>
          .error (mkParamErr ("Invalid value for parameter '" ++ pn ++ "': " ++ e)
            (some pn) (some pt) (some v))
    | none => validateLoop rest params acc

/-- Shallow embedding of `validate_macro_parameters`
(`app/macro_service.py`, lines 127-182). -/
def validateMacroParameters (info : MacroInfo) (params : List (String × Value)) :
    Except ParamErr (List (String × Value)) :=
  let expected := info.parameters.length
  let provided := countProvided params
  if provided > expected then
    .error (mkParamErr ("Too many parameters. Expected " ++ toString expected ++
      ", got " ++ toString provided) none none none)
  else
    match validateLoop (info.parameters.zip info.parameter_types) params [] with
    | .error e => .error e
    | .ok validated =>
      if validated.length != provided then
        .error (mkParamErr "Parameter validation failed: mismatch in parameter count"
          none none none)
      else .ok validated

/-- What the database driver returns for one executed statement: the
fetched rows and the cursor description (column names), when present. -/
structure EngineResult where
  rows : List (List Value)
  description : Option (List String)

/-- The database driver: statement text and positionally bound values to
either a result or an error message. -/
abbrev Engine := String → List Value → Except String EngineResult

/-- `",".join(["?" for _ in param_values])`. -/
def placeholders (n : Nat) : String :=
  String.intercalate "," (List.replicate n "?")

/-- The two statement shapes of `execute_macro`
(`app/macro_service.py`, lines 353-370).  The text depends only on the
macro kind, the macro name and the number of bound values; the values
themselves are bound through the driver, never written into the text. -/
def buildQuery (t : MacroType) (name : String) (n : Nat) : String :=
  match t with
  | .TABLE =>
    if n > 0 then "SELECT * FROM " ++ name ++ "(" ++ placeholders n ++ ")"
    else "SELECT * FROM " ++ name ++ "()"
  | .SCALAR =>
    if n > 0 then "SELECT " ++ name ++ "(" ++ placeholders n ++ ")"
    else "SELECT " ++ name ++ "()"

/-- Positional argument list (`app/macro_service.py`, lines 348-351):
iterate the declared parameter names in order and append the coerced value
wherever one was recorded (a recorded `None` is appended too). -/
def buildParamValues (declared : List String) (validated : List (String × Value)) :
    List Value :=
  declared.filterMap (fun pn => dictLookup validated pn)

/-- The data slot of the normalized result dictionary. -/
inductive ResultData where
  | scalar (v : Value)
  | rows (rs : List (List Value))

/-- The normalized result dictionary of `execute_macro`
(`execution_time_ms`, a wall-clock reading, is outside the functional
model). -/
structure MacroResult where
  success : Bool
  data : ResultData
  columns : Option (List String)
  row_count : Nat
  macro_type : MacroType

/-- Outcome of `execute_macro`: the normal return or one of the raised
service exceptions (`MacroNotFoundException`, `MacroParameterError`,
`MacroExecutionError`). -/
inductive ExecOutcome where
  | ok (r : MacroResult)
  | notFound (macro_name : String) (available_macros : Option (List String))
  | paramError (e : ParamErr)
  | execError (macro_name : String) (original_error : String)

/-- The `MacroNotFoundException` constructor (`app/exceptions.py`,
lines 17-25): records `available_macros[:10]` only when a nonempty list
was supplied. -/
def mkNotFound (name : String) (avail : Option (List String)) : ExecOutcome :=
  .notFound name
    (match avail with
     | none => none
     | some l => if l.isEmpty then none else some (l.take 10))

/-- The `except` clause of `execute_macro` (`app/macro_service.py`,
lines 407-412): a failure whose lowercased message contains
`"does not exist"` is reclassified as not-found; everything else becomes
`MacroExecutionError` with the macro name and the original message. -/
def classifyEngineError (name msg : String) : ExecOutcome :=
  if containsSubstr (pyLower msg) "does not exist" then mkNotFound name none
  else .execError name msg

/-- Cache built by `list_macros` (`{macro.name: macro for macro in macros}`)
followed by `.get(name)`: with duplicate names the last descriptor wins. -/
def findMacro (catalog : List MacroInfo) (name : String) : Option MacroInfo :=
  catalog.reverse.find? (fun m => m.name == name)

/-- The tail of `execute_macro`'s `try` block (`app/macro_service.py`,
lines 372-412): normalize the driver's answer for the macro's kind, or
classify the failure.  An empty fetched row makes `row[0]` raise
`IndexError`, which the same surrounding handler classifies like any
other failure inside the `try`. -/
def normalizeResult (t : MacroType) (name : String)
    (outcome : Except String EngineResult) : ExecOutcome :=
  match outcome with
  | .error msg => classifyEngineError name msg
  | .ok res =>
    match t with
    | .TABLE =>
      .ok { success := true, data := .rows res.rows,
            columns := some (res.description.getD []),
            row_count := res.rows.length, macro_type := .TABLE }
    | .SCALAR =>
      match res.rows with
      | [] =>
        .ok { success := true, data := .scalar .vnull, columns := none,
              row_count := 0, macro_type := .SCALAR }
      | row :: _ =>
        match row with
        | [] => classifyEngineError name "tuple index out of range"
        | c :: _ =>
          .ok { success := true, data := .scalar c, columns := none,
                row_count := if c.isNull then 0 else 1, macro_type := .SCALAR }

/-- Shallow embedding of `execute_macro` (`app/macro_service.py`,
lines 311-412) against a fixed discovered catalog (the name-keyed cache
and the re-discovery a miss triggers both reflect the same most recent
discovery). -/
def executeMacro (catalog : List MacroInfo) (engine : Engine) (name : String)
    (params : List (String × Value)) : ExecOutcome :=
  match findMacro catalog name with
  | none => mkNotFound name (some (catalog.map (fun m => m.name)))
  | some info =>
    match validateMacroParameters info params with
    | .error e => .paramError e
    | .ok validated =>
      let paramValues := buildParamValues info.parameters validated
      let query := buildQuery info.macro_type name paramValues.length
      normalizeResult info.macro_type name (engine query paramValues)

/-- The (statement text, bound values) pair `execute_macro` hands the
driver; `none` when it fails before reaching execution. -/
def statementSent (catalog : List MacroInfo) (name : String)
    (params : List (String × Value)) : Option (String × List Value) :=
  match findMacro catalog name with
  | none => none
  | some info =>
    match validateMacroParameters info params with
    | .error _ => none
    | .ok validated =>
      let vs := buildParamValues info.parameters validated
      some (buildQuery info.macro_type name vs.length, vs)

/-- One registered route of the dynamic router
(`app/dynamic_endpoints.py`): path, HTTP verb and the macro it delegates
to. -/
structure Route where
  path : String
  verb : String
  macro_name : String
deriving DecidableEq, Repr

/-- State of `MacroEndpointGenerator`: the idempotency set
`_generated_endpoints` (dict keys, insertion order) and the routes added
to the router. -/
structure GenState where
  generated : List String
  routes : List Route
deriving DecidableEq, Repr

/-- `create_endpoint` (`app/dynamic_endpoints.py`, lines 35-175): one GET
route for a scalar macro; GET and POST at the same path for a table
macro. -/
def routesFor (m : MacroInfo) : List Route :=
  match m.macro_type with
  | .SCALAR => [{ path := "/" ++ m.name, verb := "GET", macro_name := m.name }]
  | .TABLE =>
    [{ path := "/" ++ m.name, verb := "GET", macro_name := m.name },
     { path := "/" ++ m.name, verb := "POST", macro_name := m.name }]

/-- The body of the loop in `generate_all_endpoints`
(`app/dynamic_endpoints.py`, lines 26-30): skip names already in the
idempotency set, otherwise register the routes and record the name. -/
def generateStep (st : GenState) (m : MacroInfo) : GenState :=
  if m.name ∈ st.generated then st
  else { generated := st.generated ++ [m.name], routes := st.routes ++ routesFor m }

/-- Shallow embedding of `generate_all_endpoints`
(`app/dynamic_endpoints.py`, lines 22-33) over the discovered catalog. -/
def generateAllEndpoints (catalog : List MacroInfo) (st : GenState) : GenState :=
  catalog.foldl generateStep st

/-- The classification rule exactly as the specification's sentence states
it: the routine-kind field decides `table_macro` rows; otherwise TABLE
if and only if the textual definition contains the token TABLE or SELECT
case-insensitively.  (Spec-side definition, for comparison with
`parseMacro`.) -/
def specClaimedKind (row : CatalogRow) : MacroType :=
  if row.function_type.getD "macro" == "table_macro" then MacroType.TABLE
  else if containsSubstr (pyUpper (pyStrOr row.macro_definition "")) "TABLE"
      || containsSubstr (pyUpper (pyStrOr row.macro_definition "")) "SELECT" then
    MacroType.TABLE
  else MacroType.SCALAR

/-!
## Theorems
-/

/-- A string every character of which is Python whitespace strips to the
empty string. -/
theorem pyStrip_eq_empty (s : String) (h : ∀ c ∈ s.data, pyIsSpace c = true) :
    pyStrip s = "" := by
  unfold pyStrip
  have h2 : s.data.dropWhile pyIsSpace = [] := List.dropWhile_eq_nil_iff.mpr h
  rw [h2]
  rfl

/-- C8: for every declared parameter type, an empty-string raw value
coerces to null; the rule fires before the dispatch on the declared type
(the right-hand side does not depend on `paramType`). -/
theorem empty_string_always_null (paramType : String) :
    convertParameter (.vstr "") paramType = .ok .vnull := rfl

/-- C10: for every declared parameter type, a raw string consisting only
of whitespace characters coerces to null, decided before the dispatch on
the declared type. -/
theorem whitespace_string_always_null (paramType s : String)
    (h : ∀ c ∈ s.data, pyIsSpace c = true) :
    convertParameter (.vstr s) paramType = .ok .vnull := by
  have h1 : pyStrip s = "" := pyStrip_eq_empty s h
  unfold convertParameter
  simp [Value.isNull, isBlankStr, h1]

/-- Witness for C10 at the nonempty whitespace-only string `" \t "`. -/
theorem whitespace_string_always_null_witness :
    (∀ c ∈ (" \t " : String).data, pyIsSpace c = true) ∧
      convertParameter (.vstr " \t ") "INTEGER" = .ok .vnull :=
  ⟨by decide, whitespace_string_always_null "INTEGER" " \t " (by decide)⟩

/-- C4 counterexample: the non-boolean, non-string value `5` declared
BOOLEAN is accepted by host truthiness conversion instead of failing with
a conversion error, contradicting the claim's "any other value ... fails
with a conversion error". -/
theorem boolean_truthiness_counterexample :
    convertParameter (.vint 5) "BOOLEAN" = .ok (.vbool true) ∧
      ∀ e, convertParameter (.vint 5) "BOOLEAN" ≠ .error e := by
  refine ⟨rfl, ?_⟩
  intro e h
  rw [show convertParameter (.vint 5) "BOOLEAN" = .ok (.vbool true) from rfl] at h
  exact Except.noConfusion h

/-- The BOOLEAN string branch of `_convert_parameter` for a non-blank
string: token-set matching after lower-casing and stripping. -/
theorem convertParameter_boolean_str (s : String) (hs : pyStrip s ≠ "") :
    convertParameter (.vstr s) "BOOLEAN" =
      (if pyStrip (pyLower s) ∈ (["true", "1", "yes", "on", "t", "y"] : List String) then
        .ok (.vbool true)
       else if pyStrip (pyLower s) ∈ (["false", "0", "no", "off", "f", "n"] : List String) then
        .ok (.vbool false)
       else .error (convErr (.vstr s) "BOOLEAN"
         ("Cannot convert '" ++ s ++ "' to boolean"))) := by
  unfold convertParameter
  simp [Value.isNull, isBlankStr, hs, show pyUpper "BOOLEAN" = "BOOLEAN" from rfl]

/-- C4 amended: BOOLEAN coercion accepts a native boolean unchanged;
a non-blank string is matched against the case-insensitive token sets
(true for true/1/yes/on/t/y, false for false/0/no/off/f/n) and any other
string fails with a conversion error; a non-null value that is neither a
boolean nor a string is converted by host truthiness (`bool(value)`),
not rejected. -/
theorem boolean_coercion_amended (b : Bool) (s : String) (v : Value)
    (hs : pyStrip s ≠ "")
    (hb : ∀ b', v ≠ .vbool b') (hstr : ∀ t, v ≠ .vstr t) (hnull : v ≠ .vnull) :
    convertParameter (.vbool b) "BOOLEAN" = .ok (.vbool b) ∧
    (pyStrip (pyLower s) ∈ (["true", "1", "yes", "on", "t", "y"] : List String) →
      convertParameter (.vstr s) "BOOLEAN" = .ok (.vbool true)) ∧
    (pyStrip (pyLower s) ∈ (["false", "0", "no", "off", "f", "n"] : List String) →
      convertParameter (.vstr s) "BOOLEAN" = .ok (.vbool false)) ∧
    (pyStrip (pyLower s) ∉ (["true", "1", "yes", "on", "t", "y"] : List String) →
     pyStrip (pyLower s) ∉ (["false", "0", "no", "off", "f", "n"] : List String) →
      convertParameter (.vstr s) "BOOLEAN" =
        .error (convErr (.vstr s) "BOOLEAN" ("Cannot convert '" ++ s ++ "' to boolean"))) ∧
    convertParameter v "BOOLEAN" = .ok (.vbool (pyTruthy v)) := by
  refine ⟨rfl, ?_, ?_, ?_, ?_⟩
  · intro hmem
    rw [convertParameter_boolean_str s hs]
    simp [hmem]
  · intro hmem
    rw [convertParameter_boolean_str s hs]
    have hx : pyStrip (pyLower s) ∉ (["true", "1", "yes", "on", "t", "y"] : List String) := by
      simp only [List.mem_cons, List.not_mem_nil, or_false] at hmem ⊢
      rcases hmem with h | h | h | h | h | h <;> rw [h] <;> decide
    simp [hx, hmem]
  · intro h1 h2
    rw [convertParameter_boolean_str s hs]
    simp [h1, h2]
  · match v with
    | .vnull => exact absurd rfl hnull
    | .vbool b' => exact absurd rfl (hb b')
    | .vstr t => exact absurd rfl (hstr t)
    | .vint n =>
      unfold convertParameter
      simp [Value.isNull, isBlankStr, pyTruthy, show pyUpper "BOOLEAN" = "BOOLEAN" from rfl]
    | .vfloat q =>
      unfold convertParameter
      simp [Value.isNull, isBlankStr, pyTruthy, show pyUpper "BOOLEAN" = "BOOLEAN" from rfl]
    | .vlist l =>
      unfold convertParameter
      simp [Value.isNull, isBlankStr, pyTruthy, show pyUpper "BOOLEAN" = "BOOLEAN" from rfl]
    | .vdict d =>
      unfold convertParameter
      simp [Value.isNull, isBlankStr, pyTruthy, show pyUpper "BOOLEAN" = "BOOLEAN" from rfl]

/-- Witness for C4's amended theorem at `s := "YES"`, `v := 7`. -/
theorem boolean_coercion_amended_witness :
    convertParameter (.vstr "YES") "BOOLEAN" = .ok (.vbool true) ∧
      convertParameter (.vint 7) "BOOLEAN" = .ok (.vbool (pyTruthy (.vint 7))) :=
  ⟨(boolean_coercion_amended true "YES" (.vint 7) (by decide)
      (fun _ h => nomatch h) (fun _ h => nomatch h) (fun h => nomatch h)).2.1 (by decide),
   (boolean_coercion_amended true "YES" (.vint 7) (by decide)
      (fun _ h => nomatch h) (fun _ h => nomatch h) (fun h => nomatch h)).2.2.2.2⟩

/-- C2 counterexample row: a plain `macro` row whose textual definition
contains neither TABLE nor SELECT, but whose declared return type starts
with TABLE. -/
def kindCexRow : CatalogRow :=
  { function_name := "pair_fn", parameters := some ["x"],
    parameter_types := some [some "INTEGER"],
    return_type := some "TABLE(a INTEGER)",
    macro_definition := some "x + 1", function_type := some "macro" }

/-- C2 counterexample: on `kindCexRow` the specification's stated rule
classifies SCALAR, but the code classifies TABLE (it also sniffs the
declared return type for a TABLE prefix). -/
theorem classification_counterexample :
    specClaimedKind kindCexRow = MacroType.SCALAR ∧
      (parseMacro kindCexRow).macro_type = MacroType.TABLE := ⟨rfl, rfl⟩

/-- C2 amended: a `table_macro` routine-kind field forces TABLE; otherwise
the kind is TABLE if and only if the textual definition contains TABLE or
SELECT case-insensitively **or the upper-cased declared return type starts
with TABLE**, and SCALAR in every other case. -/
theorem classification_amended (row : CatalogRow) :
    (parseMacro row).macro_type =
      (if row.function_type.getD "macro" == "table_macro" then MacroType.TABLE
       else if containsSubstr (pyUpper (pyStrOr row.macro_definition "")) "TABLE"
           || pyStartsWith (pyUpper (pyStrOr row.return_type "UNKNOWN")) "TABLE"
           || containsSubstr (pyUpper (pyStrOr row.macro_definition "")) "SELECT"
         then MacroType.TABLE
       else MacroType.SCALAR) := rfl

/-- A macro whose name is already in the idempotency set is skipped. -/
theorem generateStep_mem_eq (st : GenState) (m : MacroInfo)
    (h : m.name ∈ st.generated) : generateStep st m = st := by
  unfold generateStep
  simp [h]

/-- One generation step never removes a name from the idempotency set. -/
theorem generated_mono (st : GenState) (m : MacroInfo) :
    st.generated ⊆ (generateStep st m).generated := by
  unfold generateStep
  split
  · exact fun x hx => hx
  · intro x hx
    simp [hx]

/-- After one step on `m`, the name of `m` is in the idempotency set. -/
theorem name_mem_generateStep (st : GenState) (m : MacroInfo) :
    m.name ∈ (generateStep st m).generated := by
  unfold generateStep
  split
  · assumption
  · simp

/-- Generation never removes a name from the idempotency set. -/
theorem generated_mono_generateAll (l : List MacroInfo) (st : GenState) :
    st.generated ⊆ (generateAllEndpoints l st).generated := by
  induction l generalizing st with
  | nil => exact fun x hx => hx
  | cons m rest ih =>
    intro x hx
    exact ih (generateStep st m) (generated_mono st m hx)

/-- After a full generation pass, every catalog name is registered. -/
theorem all_names_mem_generateAll (l : List MacroInfo) (st : GenState) :
    ∀ m ∈ l, m.name ∈ (generateAllEndpoints l st).generated := by
  induction l generalizing st with
  | nil => intro m hm; cases hm
  | cons a rest ih =>
    intro m hm
    rcases List.mem_cons.mp hm with h | h
    · subst h
      exact generated_mono_generateAll rest (generateStep st m) (name_mem_generateStep st m)
    · exact ih (generateStep st a) m h

/-- A generation pass in which every catalog name is already registered
changes nothing. -/
theorem generateAll_eq_self (l : List MacroInfo) (st : GenState) :
    (∀ m ∈ l, m.name ∈ st.generated) → generateAllEndpoints l st = st := by
  induction l with
  | nil => intro _; rfl
  | cons a rest ih =>
    intro h
    have h1 : generateStep st a = st := generateStep_mem_eq st a (h a (List.mem_cons_self a rest))
    calc generateAllEndpoints (a :: rest) st
        = generateAllEndpoints rest (generateStep st a) := rfl
      _ = generateAllEndpoints rest st := by rw [h1]
      _ = st := ih (fun m hm => h m (List.mem_cons_of_mem a hm))

/-- C7: generating endpoints twice over the same catalog yields exactly
the state of generating once — already-registered names are skipped, so
repeated invocation is idempotent (both the route list and the
idempotency set are unchanged by the second pass). -/
theorem generate_all_endpoints_idempotent (catalog : List MacroInfo) (st : GenState) :
    generateAllEndpoints catalog (generateAllEndpoints catalog st) =
      generateAllEndpoints catalog st :=
  generateAll_eq_self catalog _ (all_names_mem_generateAll catalog st)

/-- A single-macro catalog and a trivial driver, used to instantiate the
execution theorems on concrete inputs. -/
def greetInfo : MacroInfo :=
  { name := "greet", parameters := ["who"], parameter_types := ["VARCHAR"],
    return_type := "VARCHAR", macro_type := .SCALAR }

/-- The one-descriptor catalog holding `greetInfo`. -/
def simpleCatalog : List MacroInfo := [greetInfo]

/-- A driver that answers every statement with zero rows. -/
def emptyEngine : Engine := fun _ _ => .ok { rows := [], description := none }

/-- C5: a raw parameter map with more non-null values than the descriptor
declares makes `execute_macro` fail with the count `MacroParameterError`,
for every driver alike — the failure precedes statement construction, so
no statement reaches the database and no side effect occurs. -/
theorem too_many_params_rejected (catalog : List MacroInfo) (engine : Engine)
    (name : String) (params : List (String × Value)) (info : MacroInfo)
    (hfind : findMacro catalog name = some info)
    (hcount : countProvided params > info.parameters.length) :
    executeMacro catalog engine name params =
      .paramError (mkParamErr ("Too many parameters. Expected " ++
        toString info.parameters.length ++ ", got " ++
        toString (countProvided params)) none none none) := by
  unfold executeMacro
  rw [hfind]
  unfold validateMacroParameters
  simp [hcount]

/-- Witness for C5: two non-null values against the one-parameter macro
`greet`, under an arbitrary concrete driver. -/
theorem too_many_params_rejected_witness :
    executeMacro simpleCatalog emptyEngine "greet"
        [("who", .vstr "World"), ("extra", .vint 1)] =
      .paramError (mkParamErr "Too many parameters. Expected 1, got 2" none none none) :=
  too_many_params_rejected simpleCatalog emptyEngine "greet"
    [("who", .vstr "World"), ("extra", .vint 1)] greetInfo rfl (by decide)

/-- A found catalog entry's name is the requested name and is valid
whenever every catalog name is. -/
theorem findMacro_name_valid (catalog : List MacroInfo) (name : String)
    (info : MacroInfo) (hcat : ∀ m ∈ catalog, validMacroName m.name = true)
    (hfind : findMacro catalog name = some info) : validMacroName name = true := by
  unfold findMacro at hfind
  have hmem := List.mem_of_find?_eq_some hfind
  have hpred := List.find?_some hfind
  have hname : info.name = name := by simpa using hpred
  rw [← hname]
  exact hcat info (List.mem_reverse.mp hmem)

/-- pydantic guarantee: every descriptor of a completed discovery has a
valid name (an invalid one aborts `list_macros`). -/
theorem listMacros_names_valid (rows : List CatalogRow) (catalog : List MacroInfo)
    (h : listMacros rows = .ok catalog) :
    ∀ m ∈ catalog, validMacroName m.name = true := by
  induction rows generalizing catalog with
  | nil =>
    intro m hm
    unfold listMacros at h
    simp only [List.mapM_nil, pure, Except.pure, Except.ok.injEq] at h
    subst h
    cases hm
  | cons r rs ih =>
    intro m hm
    unfold listMacros at h ih
    rw [List.mapM_cons] at h
    cases hc : parseMacroChecked r with
    | error e => rw [hc] at h; simp [Bind.bind, Except.bind] at h
    | ok info =>
      rw [hc] at h
      cases hrest : rs.mapM parseMacroChecked with
      | error e =>
        rw [hrest] at h
        simp [Bind.bind, Except.bind, pure, Except.pure] at h
      | ok l =>
        rw [hrest] at h
        simp only [Bind.bind, Except.bind, pure, Except.pure, Except.ok.injEq] at h
        subst h
        rcases List.mem_cons.mp hm with hh | hh
        · subst hh
          unfold parseMacroChecked at hc
          by_cases hv : validMacroName (parseMacro r).name = true
          · rw [if_pos hv] at hc
            cases hc
            exact hv
          · rw [if_neg hv] at hc
            cases hc
        · exact ih l hrest m hh

/-- C1: with a catalog of pydantic-validated descriptors, (a) a requested
name failing the identifier pattern is rejected as not-found before any
statement is constructed, and (b) whenever a statement is handed to the
driver, the embedded name satisfies the identifier pattern and the
statement text is `buildQuery` of the kind, the name and the *number* of
bound values alone — parameter values are bound positionally through the
driver, never interpolated into the text. -/
theorem execute_macro_name_safety (catalog : List MacroInfo) (engine : Engine)
    (name : String) (params : List (String × Value))
    (hcat : ∀ m ∈ catalog, validMacroName m.name = true) :
    (matchesIdentPattern name = false →
      executeMacro catalog engine name params =
        mkNotFound name (some (catalog.map (fun m => m.name)))) ∧
    (∀ q vs, statementSent catalog name params = some (q, vs) →
      matchesIdentPattern name = true ∧
      ∃ info, findMacro catalog name = some info ∧
        q = buildQuery info.macro_type name vs.length ∧
        executeMacro catalog engine name params =
          normalizeResult info.macro_type name (engine q vs)) := by
  constructor
  · intro hbad
    cases hf : findMacro catalog name with
    | none =>
      unfold executeMacro
      rw [hf]
    | some info =>
      exfalso
      have hv := findMacro_name_valid catalog name info hcat hf
      unfold validMacroName at hv
      simp only [Bool.and_eq_true] at hv
      rw [hv.2] at hbad
      cases hbad
  · intro q vs hsent
    unfold statementSent at hsent
    cases hf : findMacro catalog name with
    | none => rw [hf] at hsent; cases hsent
    | some info =>
      rw [hf] at hsent
      dsimp only at hsent
      cases hval : validateMacroParameters info params with
      | error e => rw [hval] at hsent; cases hsent
      | ok validated =>
        rw [hval] at hsent
        dsimp only at hsent
        simp only [Option.some.injEq, Prod.mk.injEq] at hsent
        obtain ⟨hq, hvs⟩ := hsent
        subst hvs
        subst hq
        constructor
        · have hv := findMacro_name_valid catalog name info hcat hf
          unfold validMacroName at hv
          simp only [Bool.and_eq_true] at hv
          exact hv.2
        · refine ⟨info, rfl, rfl, ?_⟩
          unfold executeMacro
          rw [hf]
          dsimp only
          rw [hval]

/-- Witness for C1: the metacharacter-laden name `x; DROP TABLE t` is
rejected as not-found against the concrete catalog. -/
theorem execute_macro_name_safety_witness :
    executeMacro simpleCatalog emptyEngine "x; DROP TABLE t" [] =
      mkNotFound "x; DROP TABLE t" (some ["greet"]) :=
  (execute_macro_name_safety simpleCatalog emptyEngine "x; DROP TABLE t" []
    (by decide)).1 (by decide)

/-- A driver that answers with exactly one row holding a single NULL. -/
def nullCellEngine : Engine :=
  fun _ _ => .ok { rows := [[Value.vnull]], description := some ["greeting"] }

/-- C3 counterexample: the engine returns one row whose single cell is
SQL NULL; a row did come back, yet the code reports `row_count 0` with
null data (the count keys on the value's nullness, not on row presence),
contradicting "data is null with row_count 0 exactly when no row came
back". -/
theorem scalar_rowcount_counterexample :
    (∀ q vs res, nullCellEngine q vs = .ok res → res.rows.length = 1) ∧
      executeMacro simpleCatalog nullCellEngine "greet" [("who", .vstr "World")] =
        .ok { success := true, data := .scalar .vnull, columns := none,
              row_count := 0, macro_type := .SCALAR } := by
  constructor
  · intro q vs res h
    injection h with h2
    rw [← h2]
    rfl
  · rfl

/-- C3 amended: for a completed SCALAR execution the data is the first
cell of the first returned row (null when no row came back), and the row
count is 1 exactly when that cell is non-null — so zero rows give null
data with row_count 0, and a returned NULL cell also gives row_count 0
even though a row came back. -/
theorem scalar_result_amended (catalog : List MacroInfo) (engine : Engine)
    (name : String) (params : List (String × Value)) (info : MacroInfo)
    (validated : List (String × Value)) (res : EngineResult)
    (hfind : findMacro catalog name = some info)
    (hscalar : info.macro_type = .SCALAR)
    (hval : validateMacroParameters info params = .ok validated)
    (heng : engine (buildQuery info.macro_type name
          (buildParamValues info.parameters validated).length)
        (buildParamValues info.parameters validated) = .ok res) :
    (res.rows = [] →
      executeMacro catalog engine name params =
        .ok { success := true, data := .scalar .vnull, columns := none,
              row_count := 0, macro_type := .SCALAR }) ∧
    (∀ c cs rs, res.rows = (c :: cs) :: rs →
      executeMacro catalog engine name params =
        .ok { success := true, data := .scalar c, columns := none,
              row_count := if c.isNull then 0 else 1, macro_type := .SCALAR }) := by
  constructor
  · intro hr
    unfold executeMacro
    rw [hfind]
    dsimp only
    rw [hval]
    dsimp only
    rw [heng]
    unfold normalizeResult
    rw [hscalar]
    dsimp only
    rw [hr]
  · intro c cs rs hr
    unfold executeMacro
    rw [hfind]
    dsimp only
    rw [hval]
    dsimp only
    rw [heng]
    unfold normalizeResult
    rw [hscalar]
    dsimp only
    rw [hr]

/-- Witness for C3's amended theorem: zero rows from the driver give null
data and row_count 0. -/
theorem scalar_result_amended_witness :
    executeMacro simpleCatalog emptyEngine "greet" [] =
      .ok { success := true, data := .scalar .vnull, columns := none,
            row_count := 0, macro_type := .SCALAR } :=
  (scalar_result_amended simpleCatalog emptyEngine "greet" [] greetInfo []
    { rows := [], description := none } rfl rfl rfl rfl).1 rfl

/-- A driver whose failure message holds the reclassification phrase in
upper case only. -/
def upperCaseFailEngine : Engine :=
  fun _ _ => .error "Catalog Error: DOES NOT EXIST"

/-- C6 counterexample: an engine failure whose message does not contain
the literal substring "does not exist" (here it appears upper-cased) is
still reclassified as not-found, because the code matches against the
lower-cased message — contradicting "all other engine failures become
ExecutionError". -/
theorem notfound_reclassification_counterexample :
    containsSubstr "Catalog Error: DOES NOT EXIST" "does not exist" = false ∧
      executeMacro simpleCatalog upperCaseFailEngine "greet" [] =
        .notFound "greet" none := ⟨rfl, rfl⟩

/-- Lower-casing preserves an occurrence of the already-lowercase phrase,
so a message containing the literal substring still contains it after
`str.lower()`. -/
theorem containsSubstr_lower_mono (msg : String)
    (h : containsSubstr msg "does not exist" = true) :
    containsSubstr (pyLower msg) "does not exist" = true := by
  unfold containsSubstr at h ⊢
  rw [decide_eq_true_eq] at h ⊢
  obtain ⟨s, t, hst⟩ := h
  refine ⟨s.map pyCharLower, t.map pyCharLower, ?_⟩
  have hdata : (pyLower msg).data = msg.data.map pyCharLower := rfl
  rw [hdata, ← hst]
  simp only [List.map_append]
  rw [show ("does not exist" : String).data.map pyCharLower
      = ("does not exist" : String).data from by decide]

/-- C6 amended: a name absent from the catalog yields not-found enriched
with at most 10 sample catalog names (never an ExecutionError); an engine
failure is reclassified as not-found exactly when its lower-cased message
contains "does not exist" — in particular whenever the message contains
the literal substring — and every other failure becomes an ExecutionError
carrying the macro name and the original message. -/
theorem notfound_enrichment_amended (catalog : List MacroInfo) (engine : Engine)
    (name : String) (params : List (String × Value)) :
    (findMacro catalog name = none →
      ∃ d, executeMacro catalog engine name params = .notFound name d ∧
        (∀ l, d = some l → l.length ≤ 10 ∧
          ∀ x ∈ l, x ∈ catalog.map (fun m => m.name))) ∧
    (∀ info validated msg,
      findMacro catalog name = some info →
      validateMacroParameters info params = .ok validated →
      engine (buildQuery info.macro_type name
          (buildParamValues info.parameters validated).length)
        (buildParamValues info.parameters validated) = .error msg →
      (containsSubstr (pyLower msg) "does not exist" = true →
        executeMacro catalog engine name params = .notFound name none) ∧
      (containsSubstr (pyLower msg) "does not exist" = false →
        executeMacro catalog engine name params = .execError name msg) ∧
      (containsSubstr msg "does not exist" = true →
        executeMacro catalog engine name params = .notFound name none)) := by
  constructor
  · intro hf
    refine ⟨(if (catalog.map (fun m => m.name)).isEmpty then none
             else some ((catalog.map (fun m => m.name)).take 10)), ?_, ?_⟩
    · unfold executeMacro
      rw [hf]
      rfl
    · intro l hl
      by_cases he : (catalog.map (fun m => m.name)).isEmpty
      · rw [if_pos he] at hl
        cases hl
      · rw [if_neg he] at hl
        injection hl with h2
        subst h2
        refine ⟨?_, fun x hx => List.take_subset 10 _ hx⟩
        rw [List.length_take]
        exact min_le_left 10 _
  · intro info validated msg hfind hval heng
    have hrun : executeMacro catalog engine name params = classifyEngineError name msg := by
      unfold executeMacro
      rw [hfind]
      dsimp only
      rw [hval]
      dsimp only
      rw [heng]
      rfl
    refine ⟨?_, ?_, ?_⟩
    · intro h1
      rw [hrun]
      unfold classifyEngineError
      rw [h1]
      rfl
    · intro h1
      rw [hrun]
      unfold classifyEngineError
      rw [h1]
      rfl
    · intro h1
      rw [hrun]
      unfold classifyEngineError
      rw [containsSubstr_lower_mono msg h1]
      rfl

/-- Witness for C6's amended theorem: the unregistered name `nope`
against the concrete one-entry catalog. -/
theorem notfound_enrichment_amended_witness :
    ∃ d, executeMacro simpleCatalog emptyEngine "nope" [] = .notFound "nope" d ∧
      (∀ l, d = some l → l.length ≤ 10 ∧
        ∀ x ∈ l, x ∈ simpleCatalog.map (fun m => m.name)) :=
  (notfound_enrichment_amended simpleCatalog emptyEngine "nope" []).1 rfl

/-- Key list of a coerced-parameter association list. -/
def keysOf (m : List (String × Value)) : List String := m.map Prod.fst

/-- `dictLookup` only returns entries stored in the list. -/
theorem dictLookup_mem (m : List (String × Value)) (k : String) (v : Value)
    (h : dictLookup m k = some v) : (k, v) ∈ m := by
  induction m with
  | nil => cases h
  | cons p rest ih =>
    obtain ⟨pk, pv⟩ := p
    unfold dictLookup at h
    by_cases hk : pk = k
    · rw [if_pos hk] at h
      injection h with hv
      subst hv
      subst hk
      exact List.mem_cons_self _ _
    · rw [if_neg hk] at h
      exact List.mem_cons_of_mem _ (ih h)

/-- Membership after a dict assignment: the new key or an old entry. -/
theorem insertReplace_mem (m : List (String × Value)) (k : String) (v : Value) :
    ∀ kv ∈ insertReplace m k v, kv.1 = k ∨ kv ∈ m := by
  intro kv hkv
  unfold insertReplace at hkv
  split at hkv
  · obtain ⟨p, hp, hpe⟩ := List.mem_map.mp hkv
    by_cases hpk : (p.1 == k) = true
    · rw [if_pos hpk] at hpe
      subst hpe
      left
      rfl
    · rw [if_neg hpk] at hpe
      subst hpe
      right
      exact hp
  · rcases List.mem_append.mp hkv with h | h
    · right
      exact h
    · left
      rw [List.mem_singleton.mp h]

/-- A dict assignment leaves the key list unchanged on replacement and
appends the new key otherwise. -/
theorem insertReplace_keys (m : List (String × Value)) (k : String) (v : Value) :
    keysOf (insertReplace m k v) =
      if m.any (fun p => p.1 == k) then keysOf m else keysOf m ++ [k] := by
  unfold insertReplace keysOf
  split
  · rw [List.map_map]
    apply List.map_congr_left
    intro p _
    by_cases hpk : (p.1 == k) = true
    · simp only [Function.comp_apply, if_pos hpk]
      exact (beq_iff_eq.mp hpk).symm
    · simp only [Function.comp_apply, if_neg hpk]
  · simp

/-- A dict assignment keeps the key list duplicate-free. -/
theorem insertReplace_keys_nodup (m : List (String × Value)) (k : String) (v : Value)
    (h : (keysOf m).Nodup) : (keysOf (insertReplace m k v)).Nodup := by
  rw [insertReplace_keys]
  by_cases hany : m.any (fun p => p.1 == k) = true
  · rw [if_pos hany]
    exact h
  · rw [if_neg hany]
    have hk : k ∉ keysOf m := by
      intro hmem
      obtain ⟨p, hp, hpe⟩ := List.mem_map.mp hmem
      exact hany (List.any_eq_true.mpr ⟨p, hp, by rw [hpe]; exact beq_self_eq_true k⟩)
    simp [List.nodup_append, h, hk]

/-- A dict assignment grows the list by at most one entry. -/
theorem insertReplace_length (m : List (String × Value)) (k : String) (v : Value) :
    (insertReplace m k v).length ≤ m.length + 1 := by
  unfold insertReplace
  split
  · rw [List.length_map]
    omega
  · rw [List.length_append]
    simp

/-- Removing elements by a predicate strictly shrinks a list that holds an
element the predicate rejects. -/
theorem length_filter_lt_of_mem_not {α : Type} (l : List α) (p : α → Bool) (x : α)
    (hx : x ∈ l) (hpx : p x = false) : (l.filter p).length < l.length := by
  induction l with
  | nil => cases hx
  | cons a t ih =>
    rcases List.mem_cons.mp hx with h | h
    · subst h
      rw [List.filter_cons, hpx]
      calc (t.filter p).length ≤ t.length := List.length_filter_le _ _
        _ < t.length + 1 := Nat.lt_succ_self _
    · cases hpa : p a
      · rw [List.filter_cons, hpa]
        exact Nat.lt_succ_of_lt (ih h)
      · rw [List.filter_cons, hpa]
        dsimp only [List.length_cons]
        exact Nat.succ_lt_succ (ih h)

/-- Invariants of the validation loop: every produced entry's key comes
from the processed declared pairs or the accumulator, every produced key
was looked up non-null in the raw map (or was already accumulated), the
key list stays duplicate-free, and the length grows by at most one per
processed pair. -/
theorem validateLoop_ok_props (pairs : List (String × String))
    (params : List (String × Value)) :
    ∀ acc out, validateLoop pairs params acc = .ok out →
      (∀ kv ∈ out, kv.1 ∈ pairs.map Prod.fst ∨ kv ∈ acc) ∧
      (∀ k', k' ∈ keysOf out →
        (∃ v', dictLookup params k' = some v' ∧ v'.isNull = false) ∨ k' ∈ keysOf acc) ∧
      ((keysOf acc).Nodup → (keysOf out).Nodup) ∧
      out.length ≤ acc.length + pairs.length := by
  induction pairs with
  | nil =>
    intro acc out h
    unfold validateLoop at h
    injection h with h2
    subst h2
    exact ⟨fun kv hkv => Or.inr hkv, fun k' hk' => Or.inr hk', fun h => h,
      Nat.le_add_right _ _⟩
  | cons pr rest ih =>
    intro acc out h
    obtain ⟨pn, pt⟩ := pr
    unfold validateLoop at h
    cases hl : dictLookup params pn with
    | none =>
      rw [hl] at h
      obtain ⟨h1, h2, h3, h4⟩ := ih acc out h
      refine ⟨?_, h2, h3, ?_⟩
      · intro kv hkv
        rcases h1 kv hkv with hh | hh
        · exact Or.inl (List.mem_cons_of_mem _ hh)
        · exact Or.inr hh
      · simp only [List.length_cons]
        omega
    | some v =>
      rw [hl] at h
      dsimp only at h
      by_cases hn : v.isNull = true
      · rw [if_pos hn] at h
        obtain ⟨h1, h2, h3, h4⟩ := ih acc out h
        refine ⟨?_, h2, h3, ?_⟩
        · intro kv hkv
          rcases h1 kv hkv with hh | hh
          · exact Or.inl (List.mem_cons_of_mem _ hh)
          · exact Or.inr hh
        · simp only [List.length_cons]
          omega
      · rw [if_neg hn] at h
        cases hc : convertParameter v pt with
        | error e =>
          rw [hc] at h
          cases h
        | ok cv =>
          rw [hc] at h
          dsimp only at h
          obtain ⟨h1, h2, h3, h4⟩ := ih (insertReplace acc pn cv) out h
          refine ⟨?_, ?_, ?_, ?_⟩
          · intro kv hkv
            rcases h1 kv hkv with hh | hh
            · exact Or.inl (List.mem_cons_of_mem _ hh)
            · rcases insertReplace_mem acc pn cv kv hh with hh2 | hh2
              · exact Or.inl (by rw [hh2]; exact List.mem_cons_self _ _)
              · exact Or.inr hh2
          · intro k' hk'
            rcases h2 k' hk' with hh | hh
            · exact Or.inl hh
            · rw [insertReplace_keys] at hh
              by_cases hany : acc.any (fun p => p.1 == pn) = true
              · rw [if_pos hany] at hh
                exact Or.inr hh
              · rw [if_neg hany] at hh
                rcases List.mem_append.mp hh with hh2 | hh2
                · exact Or.inr hh2
                · have hkeq : k' = pn := List.mem_singleton.mp hh2
                  subst hkeq
                  exact Or.inl ⟨v, hl, by simpa using hn⟩
          · intro hnd
            exact h3 (insertReplace_keys_nodup acc pn cv hnd)
          · have := insertReplace_length acc pn cv
            simp only [List.length_cons]
            omega

/-- Inversion of a successful validation: the loop succeeded from an
empty accumulator and the final count check passed. -/
theorem validate_ok_inversion (info : MacroInfo) (params : List (String × Value))
    (out : List (String × Value))
    (h : validateMacroParameters info params = .ok out) :
    validateLoop (info.parameters.zip info.parameter_types) params [] = .ok out ∧
      out.length = countProvided params := by
  unfold validateMacroParameters at h
  dsimp only at h
  by_cases hc : countProvided params > info.parameters.length
  · rw [if_pos hc] at h
    cases h
  · rw [if_neg hc] at h
    cases hloop : validateLoop (info.parameters.zip info.parameter_types) params [] with
    | error e =>
      rw [hloop] at h
      cases h
    | ok out2 =>
      rw [hloop] at h
      dsimp only at h
      by_cases hlen : (out2.length != countProvided params) = true
      · rw [if_pos hlen] at h
        cases h
      · rw [if_neg hlen] at h
        injection h with h2
        subst h2
        refine ⟨rfl, ?_⟩
        simpa using hlen

/-- C9: when validation succeeds, every key of the coerced map is a
declared parameter name and the map holds at most as many entries as the
descriptor declares parameters; and a raw map holding a non-null value
under an undeclared name always makes validation fail with a
`MacroParameterError`. -/
theorem validated_params_invariant (info : MacroInfo) (params : List (String × Value)) :
    (∀ out, validateMacroParameters info params = .ok out →
      (∀ kv ∈ out, kv.1 ∈ info.parameters) ∧ out.length ≤ info.parameters.length) ∧
    (∀ k v, (k, v) ∈ params → v.isNull = false → k ∉ info.parameters →
      ∃ e, validateMacroParameters info params = .error e) := by
  constructor
  · intro out hok
    obtain ⟨hloop, _⟩ := validate_ok_inversion info params out hok
    obtain ⟨h1, _, _, h4⟩ := validateLoop_ok_props _ params [] out hloop
    constructor
    · intro kv hkv
      rcases h1 kv hkv with h | h
      · obtain ⟨pq, hpq, hfst⟩ := List.mem_map.mp h
        rw [← hfst]
        exact (List.of_mem_zip hpq).1
      · cases h
    · calc out.length ≤ [].length + (info.parameters.zip info.parameter_types).length := h4
        _ = (info.parameters.zip info.parameter_types).length := by simp
        _ ≤ info.parameters.length := by
            rw [List.length_zip]
            exact min_le_left _ _
  · intro k v hmem hnn hnd
    cases hv : validateMacroParameters info params with
    | error e => exact ⟨e, rfl⟩
    | ok out =>
      exfalso
      obtain ⟨hloop, hlen⟩ := validate_ok_inversion info params out hv
      obtain ⟨h1, h2, h3, _⟩ := validateLoop_ok_props _ params [] out hloop
      set P := params.filter (fun p => !p.2.isNull) with hP
      set G := P.filter (fun p => decide (p.1 ∈ info.parameters)) with hG
      have hsub : keysOf out ⊆ keysOf G := by
        intro k' hk'
        rcases h2 k' hk' with ⟨v', hlk, hvnn⟩ | hacc
        · have hk'mem : k' ∈ info.parameters := by
            obtain ⟨kv, hkv, hfst⟩ := List.mem_map.mp hk'
            rcases h1 kv hkv with hh | hh
            · obtain ⟨pq, hpq, hfst2⟩ := List.mem_map.mp hh
              rw [← hfst, ← hfst2]
              exact (List.of_mem_zip hpq).1
            · cases hh
          have hinP : (k', v') ∈ P := by
            rw [hP]
            exact List.mem_filter.mpr ⟨dictLookup_mem params k' v' hlk, by simp [hvnn]⟩
          have hinG : (k', v') ∈ G := by
            rw [hG]
            exact List.mem_filter.mpr ⟨hinP, by simpa using hk'mem⟩
          exact List.mem_map.mpr ⟨(k', v'), hinG, rfl⟩
        · cases hacc
      have hnd_out : (keysOf out).Nodup := h3 List.nodup_nil
      have hle : out.length ≤ G.length := by
        have := (hnd_out.subperm hsub).length_le
        rw [show (keysOf out).length = out.length from List.length_map _ _] at this
        rw [show (keysOf G).length = G.length from List.length_map _ _] at this
        exact this
      have hlt : G.length < P.length := by
        rw [hG]
        refine length_filter_lt_of_mem_not P _ (k, v) ?_ (by simpa using hnd)
        rw [hP]
        exact List.mem_filter.mpr ⟨hmem, by simp [hnn]⟩
      have hPlen : P.length = countProvided params := rfl
      omega

/-- Witness for C9: the one-parameter macro `greet` with a non-null value
under the undeclared name `bad` is rejected. -/
theorem validated_params_invariant_witness :
    ∃ e, validateMacroParameters greetInfo
      [("who", .vstr "x"), ("bad", .vint 1)] = .error e :=
  (validated_params_invariant greetInfo
      [("who", .vstr "x"), ("bad", .vint 1)]).2 "bad" (.vint 1)
    (List.mem_cons_of_mem _ (List.mem_cons_self _ _)) rfl (by decide)

end QuickQuack
